import Mathlib

/-!
Verification development for the MedUX `medux.core` package
(`fields.py`, `models.py`, `admin.py`).

The Python code is shallowly embedded: each custom model-field class is
represented by the record of attributes its constructor produces, the
framework validation pipeline is represented by executable predicates,
and the only piece of genuine computation — `Base64TextField.from_db_value`,
which composes `base64.b64decode` with `bytes.decode("utf-8")` — is
embedded as an executable function on character lists, with Python
exceptions modelled by `Except`.

Bytes are `Nat` values below 256; text is a `List Char` (Lean `Char` is
exactly a Unicode scalar value, which is also the invariant of Python
`str`).
-/

namespace MedUX

/-! ### Base64 (Python `base64.b64decode` / `base64.b64encode`)

`from_db_value` calls `base64.b64decode(value)`.  The CPython decoder
(`binascii.a2b_base64` in non-strict mode) first skips every character
that is neither in the base64 alphabet nor `=`, then decodes groups of
four symbols, with `=` padding allowed only at the end of the final
group; leftover symbols raise `binascii.Error`. -/

/-- The base64 alphabet: index 0–25 ↦ `A`–`Z`, 26–51 ↦ `a`–`z`,
52–61 ↦ `0`–`9`, 62 ↦ `+`, 63 ↦ `/`. -/
def b64Char (i : Nat) : Char :=
  if i < 26 then Char.ofNat (65 + i)
  else if i < 52 then Char.ofNat (97 + (i - 26))
  else if i < 62 then Char.ofNat (48 + (i - 52))
  else if i = 62 then '+'
  else '/'

/-- Inverse of the alphabet table: the six-bit value of a base64 symbol,
`none` for a character outside the alphabet. -/
def b64Index (c : Char) : Option Nat :=
  if 'A' ≤ c ∧ c ≤ 'Z' then some (c.toNat - 65)
  else if 'a' ≤ c ∧ c ≤ 'z' then some (26 + (c.toNat - 97))
  else if '0' ≤ c ∧ c ≤ '9' then some (52 + (c.toNat - 48))
  else if c = '+' then some 62
  else if c = '/' then some 63
  else none

/-- Python `base64.b64encode`: bytes to base64 text, three bytes per
four symbols, `=`-padded final group. -/
def b64encodeBytes : List Nat → List Char
  | [] => []
  | [b1] =>
      [b64Char (b1 / 4), b64Char (b1 % 4 * 16), '=', '=']
  | [b1, b2] =>
      [b64Char (b1 / 4), b64Char (b1 % 4 * 16 + b2 / 16),
       b64Char (b2 % 16 * 4), '=']
  | b1 :: b2 :: b3 :: rest =>
      b64Char (b1 / 4) :: b64Char (b1 % 4 * 16 + b2 / 16) ::
      b64Char (b2 % 16 * 4 + b3 / 64) :: b64Char (b3 % 64) ::
      b64encodeBytes rest

/-- Decoding of a base64 symbol stream already stripped of foreign
characters: groups of four, `=` padding only closing the last group.
`none` models `binascii.Error`. -/
def b64decodeCore : List Char → Option (List Nat)
  | [] => some []
  | c1 :: c2 :: c3 :: c4 :: rest =>
      match b64Index c1, b64Index c2 with
      | some i1, some i2 =>
          if c3 = '=' then
            if c4 = '=' ∧ rest = [] then some [i1 * 4 + i2 / 16] else none
          else
            match b64Index c3 with
            | some i3 =>
                if c4 = '=' then
                  if rest = [] then
                    some [i1 * 4 + i2 / 16, i2 % 16 * 16 + i3 / 4]
                  else none
                else
                  match b64Index c4 with
                  | some i4 =>
                      (b64decodeCore rest).map
                        (fun bs =>
                          (i1 * 4 + i2 / 16) :: (i2 % 16 * 16 + i3 / 4) ::
                          (i3 % 4 * 64 + i4) :: bs)
                  | none => none
            | none => none
      | _, _ => none
  | _ => none

/-- A character the CPython base64 decoder keeps: an alphabet symbol or
the padding sign. -/
def b64Kept (c : Char) : Bool :=
  (b64Index c).isSome || c = '='

/-- Python `base64.b64decode` (default non-strict mode): drop foreign
characters, then decode; `none` models `binascii.Error`. -/
def b64decode (s : List Char) : Option (List Nat) :=
  b64decodeCore (s.filter b64Kept)

/-! ### UTF-8 (Python `bytes.decode("utf-8")` / `str.encode("utf-8")`)

The CPython UTF-8 codec is strict: continuation bytes must be in
`0x80–0xBF`, overlong encodings, surrogates (`0xD800–0xDFFF`) and code
points above `0x10FFFF` are rejected (`UnicodeDecodeError`, modelled by
`none`). -/

/-- The UTF-8 encoding of one Unicode scalar value. -/
def utf8EncodeChar (c : Char) : List Nat :=
  let n := c.toNat
  if n < 0x80 then [n]
  else if n < 0x800 then [0xC0 + n / 64, 0x80 + n % 64]
  else if n < 0x10000 then
    [0xE0 + n / 4096, 0x80 + n / 64 % 64, 0x80 + n % 64]
  else
    [0xF0 + n / 262144, 0x80 + n / 4096 % 64, 0x80 + n / 64 % 64,
     0x80 + n % 64]

/-- Python `str.encode("utf-8")`. -/
def utf8Encode : List Char → List Nat
  | [] => []
  | c :: cs => utf8EncodeChar c ++ utf8Encode cs

/-- A UTF-8 continuation byte (`10xxxxxx`). -/
def isCont (b : Nat) : Bool :=
  0x80 ≤ b ∧ b < 0xC0

/-- Decoding of the first UTF-8 sequence of a byte stream: the scalar
value and the number of bytes consumed, `none` on malformed input. -/
def utf8DecodeOne : List Nat → Option (Nat × Nat)
  | [] => none
  | b1 :: rest =>
      if b1 < 0x80 then some (b1, 1)
      else if b1 < 0xC0 then none
      else if b1 < 0xE0 then
        match rest with
        | b2 :: _ =>
            if isCont b2 then
              let n := (b1 - 0xC0) * 64 + (b2 - 0x80)
              if 0x80 ≤ n then some (n, 2) else none
            else none
        | [] => none
      else if b1 < 0xF0 then
        match rest with
        | b2 :: b3 :: _ =>
            if isCont b2 ∧ isCont b3 then
              let n := (b1 - 0xE0) * 4096 + (b2 - 0x80) * 64 + (b3 - 0x80)
              if 0x800 ≤ n ∧ ¬ (0xD800 ≤ n ∧ n < 0xE000) then some (n, 3)
              else none
            else none
        | _ => none
      else if b1 < 0xF8 then
        match rest with
        | b2 :: b3 :: b4 :: _ =>
            if isCont b2 ∧ isCont b3 ∧ isCont b4 then
              let n := (b1 - 0xF0) * 262144 + (b2 - 0x80) * 4096 +
                       (b3 - 0x80) * 64 + (b4 - 0x80)
              if 0x10000 ≤ n ∧ n < 0x110000 then some (n, 4) else none
            else none
        | _ => none
      else none

theorem utf8DecodeOne_pos (l : List Nat) (n k : Nat)
    (h : utf8DecodeOne l = some (n, k)) : 1 ≤ k := by
  match l with
  | [] => simp [utf8DecodeOne] at h
  | b1 :: rest =>
      rw [utf8DecodeOne.eq_def] at h
      repeat' split at h
      all_goals simp_all
      all_goals omega

/-- Python `bytes.decode("utf-8")`, strict mode: decode sequences until
the stream is exhausted. -/
def utf8Decode : List Nat → Option (List Char)
  | [] => some []
  | b1 :: rest =>
      match h : utf8DecodeOne (b1 :: rest) with
      | none => none
      | some (n, k) =>
          (utf8Decode ((b1 :: rest).drop k)).map (fun cs => Char.ofNat n :: cs)
termination_by l => l.length
decreasing_by
  have hk := utf8DecodeOne_pos _ _ _ h
  simp [List.length_drop]
  omega

/-! ### `Base64TextField.from_db_value` (fields.py, lines 40–46) -/

/-- The Python exceptions the decode path can raise: `binascii.Error`
from `base64.b64decode`, `UnicodeDecodeError` from `.decode("utf-8")`. -/
inductive DbDecodeError where
  | binasciiError
  | unicodeDecodeError
deriving DecidableEq

/-- `Base64TextField.from_db_value`: `None` maps to `None`, otherwise
`base64.b64decode(value).decode("utf-8")`. -/
def Base64TextField.from_db_value (value : Option (List Char)) :
    Except DbDecodeError (Option (List Char)) :=
  match value with
  | none => .ok none
  | some v =>
      match b64decode v with
      | none => .error .binasciiError
      | some bytes =>
          match utf8Decode bytes with
          | none => .error .unicodeDecodeError
          | some text => .ok (some text)

/-! ### Round-trip lemmas for the base64 embedding -/

theorem b64Index_b64Char : ∀ i, i < 64 → b64Index (b64Char i) = some i := by
  decide

theorem b64Char_ne_pad : ∀ i, i < 64 → b64Char i ≠ '=' := by
  decide

theorem b64Kept_b64Char (i : Nat) (h : i < 64) : b64Kept (b64Char i) = true := by
  simp [b64Kept, b64Index_b64Char i h]

theorem b64Kept_pad : b64Kept '=' = true := by
  decide

theorem filter_b64encodeBytes (bs : List Nat) (h : ∀ b ∈ bs, b < 256) :
    (b64encodeBytes bs).filter b64Kept = b64encodeBytes bs := by
  induction bs using b64encodeBytes.induct with
  | case1 => simp [b64encodeBytes]
  | case2 b1 =>
      have hb1 : b1 < 256 := h b1 (by simp)
      simp [b64encodeBytes, List.filter, b64Kept_pad,
        b64Kept_b64Char (b1 / 4) (by omega),
        b64Kept_b64Char (b1 % 4 * 16) (by omega)]
  | case3 b1 b2 =>
      have hb1 : b1 < 256 := h b1 (by simp)
      have hb2 : b2 < 256 := h b2 (by simp)
      simp [b64encodeBytes, List.filter, b64Kept_pad,
        b64Kept_b64Char (b1 / 4) (by omega),
        b64Kept_b64Char (b1 % 4 * 16 + b2 / 16) (by omega),
        b64Kept_b64Char (b2 % 16 * 4) (by omega)]
  | case4 b1 b2 b3 rest ih =>
      have hb1 : b1 < 256 := h b1 (by simp)
      have hb2 : b2 < 256 := h b2 (by simp)
      have hb3 : b3 < 256 := h b3 (by simp)
      have hrest : ∀ b ∈ rest, b < 256 := fun b hb => h b (by simp [hb])
      simp [b64encodeBytes, List.filter,
        b64Kept_b64Char (b1 / 4) (by omega),
        b64Kept_b64Char (b1 % 4 * 16 + b2 / 16) (by omega),
        b64Kept_b64Char (b2 % 16 * 4 + b3 / 64) (by omega),
        b64Kept_b64Char (b3 % 64) (by omega),
        ih hrest]

theorem b64decodeCore_b64encodeBytes (bs : List Nat)
    (h : ∀ b ∈ bs, b < 256) :
    b64decodeCore (b64encodeBytes bs) = some bs := by
  induction bs using b64encodeBytes.induct with
  | case1 => simp [b64encodeBytes, b64decodeCore]
  | case2 b1 =>
      have hb1 : b1 < 256 := h b1 (by simp)
      rw [b64encodeBytes, b64decodeCore,
        b64Index_b64Char (b1 / 4) (by omega),
        b64Index_b64Char (b1 % 4 * 16) (by omega)]
      simp
      omega
  | case3 b1 b2 =>
      have hb1 : b1 < 256 := h b1 (by simp)
      have hb2 : b2 < 256 := h b2 (by simp)
      have hne3 : b64Char (b2 % 16 * 4) ≠ '=' := b64Char_ne_pad _ (by omega)
      simp only [b64encodeBytes, b64decodeCore,
        b64Index_b64Char (b1 / 4) (by omega),
        b64Index_b64Char (b1 % 4 * 16 + b2 / 16) (by omega),
        b64Index_b64Char (b2 % 16 * 4) (by omega),
        if_neg hne3, if_pos rfl]
      simp
      constructor <;> omega
  | case4 b1 b2 b3 rest ih =>
      have hb1 : b1 < 256 := h b1 (by simp)
      have hb2 : b2 < 256 := h b2 (by simp)
      have hb3 : b3 < 256 := h b3 (by simp)
      have hrest : ∀ b ∈ rest, b < 256 := fun b hb => h b (by simp [hb])
      have hne3 : b64Char (b2 % 16 * 4 + b3 / 64) ≠ '=' :=
        b64Char_ne_pad _ (by omega)
      have hne4 : b64Char (b3 % 64) ≠ '=' := b64Char_ne_pad _ (by omega)
      simp only [b64encodeBytes, b64decodeCore,
        b64Index_b64Char (b1 / 4) (by omega),
        b64Index_b64Char (b1 % 4 * 16 + b2 / 16) (by omega),
        b64Index_b64Char (b2 % 16 * 4 + b3 / 64) (by omega),
        b64Index_b64Char (b3 % 64) (by omega),
        if_neg hne3, if_neg hne4, ih hrest]
      simp
      refine ⟨by omega, by omega, by omega⟩

theorem b64decode_b64encodeBytes (bs : List Nat) (h : ∀ b ∈ bs, b < 256) :
    b64decode (b64encodeBytes bs) = some bs := by
  rw [b64decode, filter_b64encodeBytes bs h, b64decodeCore_b64encodeBytes bs h]

/-! ### Round-trip lemmas for the UTF-8 embedding -/

theorem charValid (c : Char) :
    c.toNat < 0xD800 ∨ (0xDFFF < c.toNat ∧ c.toNat < 0x110000) := by
  have h := c.valid
  simp [UInt32.isValidChar, Nat.isValidChar, Char.toNat] at h
  exact h

theorem utf8EncodeChar_ne_nil (c : Char) : utf8EncodeChar c ≠ [] := by
  simp only [utf8EncodeChar]
  split
  · simp
  split
  · simp
  split <;> simp

theorem utf8EncodeChar_lt (c : Char) : ∀ b ∈ utf8EncodeChar c, b < 256 := by
  have hv := charValid c
  intro b hb
  simp only [utf8EncodeChar] at hb
  by_cases h1 : c.toNat < 0x80
  · simp [if_pos h1] at hb
    omega
  · by_cases h2 : c.toNat < 0x800
    · simp [if_neg h1, if_pos h2] at hb
      omega
    · by_cases h3 : c.toNat < 0x10000
      · simp [if_neg h1, if_neg h2, if_pos h3] at hb
        omega
      · simp [if_neg h1, if_neg h2, if_neg h3] at hb
        omega

theorem utf8Encode_lt (s : List Char) : ∀ b ∈ utf8Encode s, b < 256 := by
  induction s with
  | nil => simp [utf8Encode]
  | cons c cs ih =>
      intro b hb
      rw [utf8Encode] at hb
      rcases List.mem_append.1 hb with h | h
      · exact utf8EncodeChar_lt c b h
      · exact ih b h

theorem utf8DecodeOne_encodeChar (c : Char) (rest : List Nat) :
    utf8DecodeOne (utf8EncodeChar c ++ rest) =
      some (c.toNat, (utf8EncodeChar c).length) := by
  have hv := charValid c
  by_cases h1 : c.toNat < 0x80
  · simp only [utf8EncodeChar, if_pos h1, List.cons_append, List.nil_append,
      List.length_cons, List.length_nil]
    simp only [utf8DecodeOne, if_pos h1]
  · by_cases h2 : c.toNat < 0x800
    · have e1 : ¬ (0xC0 + c.toNat / 64 < 0x80) := by omega
      have e2 : ¬ (0xC0 + c.toNat / 64 < 0xC0) := by omega
      have e3 : 0xC0 + c.toNat / 64 < 0xE0 := by omega
      have e4 : isCont (0x80 + c.toNat % 64) = true := by
        simp [isCont]
        omega
      have e5 : 0x80 ≤ (0xC0 + c.toNat / 64 - 0xC0) * 64 +
          (0x80 + c.toNat % 64 - 0x80) := by omega
      simp only [utf8EncodeChar, if_neg h1, if_pos h2, List.cons_append,
        List.nil_append, List.length_cons, List.length_nil]
      simp only [utf8DecodeOne, if_neg e1, if_neg e2, if_pos e3, e4,
        if_true, if_pos e5]
      simp only [Nat.add_sub_cancel_left, Option.some.injEq, Prod.mk.injEq,
        and_true]
      omega
    · by_cases h3 : c.toNat < 0x10000
      · have e1 : ¬ (0xE0 + c.toNat / 4096 < 0x80) := by omega
        have e2 : ¬ (0xE0 + c.toNat / 4096 < 0xC0) := by omega
        have e3 : ¬ (0xE0 + c.toNat / 4096 < 0xE0) := by omega
        have e4 : 0xE0 + c.toNat / 4096 < 0xF0 := by omega
        have e5 : isCont (0x80 + c.toNat / 64 % 64) = true := by
          simp [isCont]
          omega
        have e6 : isCont (0x80 + c.toNat % 64) = true := by
          simp [isCont]
          omega
        have e7 : 0x800 ≤ (0xE0 + c.toNat / 4096 - 0xE0) * 4096 +
            (0x80 + c.toNat / 64 % 64 - 0x80) * 64 +
            (0x80 + c.toNat % 64 - 0x80) ∧
            ¬ (0xD800 ≤ (0xE0 + c.toNat / 4096 - 0xE0) * 4096 +
              (0x80 + c.toNat / 64 % 64 - 0x80) * 64 +
              (0x80 + c.toNat % 64 - 0x80) ∧
              (0xE0 + c.toNat / 4096 - 0xE0) * 4096 +
              (0x80 + c.toNat / 64 % 64 - 0x80) * 64 +
              (0x80 + c.toNat % 64 - 0x80) < 0xE000) := by omega
        simp only [utf8EncodeChar, if_neg h1, if_neg h2, if_pos h3,
          List.cons_append, List.nil_append, List.length_cons, List.length_nil]
        simp only [utf8DecodeOne, if_neg e1, if_neg e2, if_neg e3, if_pos e4,
          e5, e6, true_and, and_true, if_true, if_pos e7]
        simp only [Nat.add_sub_cancel_left, Option.some.injEq, Prod.mk.injEq,
          and_true]
        omega
      · have e1 : ¬ (0xF0 + c.toNat / 262144 < 0x80) := by omega
        have e2 : ¬ (0xF0 + c.toNat / 262144 < 0xC0) := by omega
        have e3 : ¬ (0xF0 + c.toNat / 262144 < 0xE0) := by omega
        have e4 : ¬ (0xF0 + c.toNat / 262144 < 0xF0) := by omega
        have e5 : 0xF0 + c.toNat / 262144 < 0xF8 := by omega
        have e6 : isCont (0x80 + c.toNat / 4096 % 64) = true := by
          simp [isCont]
          omega
        have e7 : isCont (0x80 + c.toNat / 64 % 64) = true := by
          simp [isCont]
          omega
        have e8 : isCont (0x80 + c.toNat % 64) = true := by
          simp [isCont]
          omega
        have e9 : 0x10000 ≤ (0xF0 + c.toNat / 262144 - 0xF0) * 262144 +
            (0x80 + c.toNat / 4096 % 64 - 0x80) * 4096 +
            (0x80 + c.toNat / 64 % 64 - 0x80) * 64 +
            (0x80 + c.toNat % 64 - 0x80) ∧
            (0xF0 + c.toNat / 262144 - 0xF0) * 262144 +
            (0x80 + c.toNat / 4096 % 64 - 0x80) * 4096 +
            (0x80 + c.toNat / 64 % 64 - 0x80) * 64 +
            (0x80 + c.toNat % 64 - 0x80) < 0x110000 := by omega
        simp only [utf8EncodeChar, if_neg h1, if_neg h2, if_neg h3,
          List.cons_append, List.nil_append, List.length_cons, List.length_nil]
        simp only [utf8DecodeOne, if_neg e1, if_neg e2, if_neg e3, if_neg e4,
          if_pos e5, e6, e7, e8, true_and, and_true, if_true, if_pos e9]
        simp only [Nat.add_sub_cancel_left, Option.some.injEq, Prod.mk.injEq,
          and_true]
        omega

theorem utf8Decode_append_encodeChar (c : Char) (rest : List Nat) :
    utf8Decode (utf8EncodeChar c ++ rest) =
      (utf8Decode rest).map (fun cs => c :: cs) := by
  obtain ⟨b, bs, hbs⟩ : ∃ b bs, utf8EncodeChar c = b :: bs := by
    cases h : utf8EncodeChar c with
    | nil => exact absurd h (utf8EncodeChar_ne_nil c)
    | cons b bs => exact ⟨b, bs, rfl⟩
  have hone := utf8DecodeOne_encodeChar c rest
  rw [hbs] at hone
  rw [hbs]
  rw [List.cons_append] at hone ⊢
  rw [utf8Decode]
  rw [hone]
  simp only [List.length_cons]
  rw [List.drop_succ_cons, List.drop_left]
  rw [Char.ofNat_toNat]

theorem utf8Decode_utf8Encode (s : List Char) :
    utf8Decode (utf8Encode s) = some s := by
  induction s with
  | nil => rw [utf8Encode, utf8Decode]
  | cons c cs ih =>
      rw [utf8Encode, utf8Decode_append_encodeChar, ih]
      rfl

/-! ### Django field construction (fields.py)

Each custom field class is represented by the attribute record its
constructor builds.  `kwargs` entries the constructors touch are made
explicit; `super().__init__(**kwargs)` is the identity embedding of the
final keyword arguments into the attribute record. -/

/-- Deterministic stand-in for `uuid.uuid4`: a generator of fresh,
pairwise distinct tokens, threaded explicitly through every call. -/
structure UuidGen where
  counter : Nat
deriving DecidableEq

/-- One `uuid.uuid4()` call: a token never produced before, plus the
advanced generator. -/
def uuid4 (g : UuidGen) : String × UuidGen :=
  ("uuid-" ++ toString g.counter, ⟨g.counter + 1⟩)

/-- A Django field default: absent, a plain value (reused verbatim for
every new object), or a callable (invoked anew for every new object). -/
inductive FieldDefault where
  | noDefault
  | value (s : String)
  | callable (f : UuidGen → String × UuidGen)

/-- The keyword arguments relevant to the custom `CharField`-based
fields, as the caller may pass them. -/
structure CharFieldKwargs where
  max_length : Option Nat
  choices : Option (List (String × String))
  blank : Bool
  default : FieldDefault
  validators : List (List Char → Except String Unit)

/-- No keyword arguments passed. -/
def defaultKwargs : CharFieldKwargs :=
  { max_length := none, choices := none, blank := false,
    default := .noDefault, validators := [] }

/-- The attribute record a `CharField`-based field carries after
`super().__init__(**kwargs)`. -/
structure CharFieldState where
  max_length : Option Nat
  choices : Option (List (String × String))
  blank : Bool
  default : FieldDefault
  validators : List (List Char → Except String Unit)

/-- `models.CharField.__init__(**kwargs)`: the framework stores the
keyword arguments as field attributes. -/
def CharField.superInit (kwargs : CharFieldKwargs) : CharFieldState :=
  { max_length := kwargs.max_length, choices := kwargs.choices,
    blank := kwargs.blank, default := kwargs.default,
    validators := kwargs.validators }

/-- The framework validation pipeline for a `CharField` value
(`Field.validate` plus the `MaxLengthValidator` implied by
`max_length`): an empty value needs `blank`; a non-empty value must be
among `choices` when a choice enumeration is present, and within the
maximum length. -/
def CharFieldState.validate (f : CharFieldState) (value : String) : Bool :=
  if value = "" then f.blank
  else
    (match f.choices with
     | some cs => cs.any (fun p => p.1 == value)
     | none => true)
    && (match f.max_length with
        | some m => decide (value.length ≤ m)
        | none => true)

/-- Django `Field.get_default`: a callable default is called anew for
each object, a plain value is returned unchanged. -/
def getDefault (d : FieldDefault) (g : UuidGen) : Option String × UuidGen :=
  match d with
  | .noDefault => (none, g)
  | .value s => (some s, g)
  | .callable f =>
      let (s, g2) := f g
      (some s, g2)

/-- Object creation with respect to one field: an explicitly provided
value is used as-is, an omitted value falls back to the field default. -/
def createObjectValue (f : CharFieldState) (provided : Option String)
    (g : UuidGen) : Option String × UuidGen :=
  match provided with
  | some v => (some v, g)
  | none => getDefault f.default g

/-- `UriField.__init__` (fields.py 106–109): unconditionally overwrites
`kwargs["max_length"]` with 255, then calls `super().__init__`. -/
def UriField.init (kwargs : CharFieldKwargs) : CharFieldState :=
  CharField.superInit { kwargs with max_length := some 255 }

/-- The attribute record of a `CodeField`: the stored `value_set`
positional argument plus the underlying `CharField` state. -/
structure CodeFieldState where
  value_set : Option String
  base : CharFieldState

/-- `CodeField.__init__(value_set=None, ...)` (fields.py 126–133):
stores the first positional argument as `self.value_set` and
unconditionally overwrites `kwargs["max_length"]` with 64. -/
def CodeField.init (value_set : Option String) (kwargs : CharFieldKwargs) :
    CodeFieldState :=
  { value_set := value_set,
    base := CharField.superInit { kwargs with max_length := some 64 } }

/-- `IdField.__init__` (fields.py 155–158): unconditionally overwrites
`kwargs["max_length"]` with 64 and `kwargs["default"]` with the result
of the call expression `uuid4()`, evaluated once, when the field itself
is constructed — not a callable to be invoked per object. -/
def IdField.init (kwargs : CharFieldKwargs) (g : UuidGen) :
    CharFieldState × UuidGen :=
  let (u, g2) := uuid4 g
  (CharField.superInit
     { kwargs with max_length := some 64, default := .value u }, g2)

/-! ### The OidField regex (fields.py 136–144)

`OidField.__init__` installs
`RegexValidator(regex='[0-2](\.[1-9]\d*)+', message='Given string is no OID')`.
The regex language is transcribed literally; Django `RegexValidator`
decides acceptance with `re.search`, i.e. it looks for a match starting
at any position of the value. -/

/-- Character class `[1-9]`. -/
def isDigit19 (c : Char) : Bool :=
  '1' ≤ c && c ≤ '9'

/-- Character class `\d` = `[0-9]`. -/
def isDigit09 (c : Char) : Bool :=
  '0' ≤ c && c ≤ '9'

/-- Character class `[0-2]`. -/
def isOidFirst (c : Char) : Bool :=
  '0' ≤ c && c ≤ '2'

/-- A list of characters matching one group `\.[1-9]\d*`. -/
def IsOidGroup (g : List Char) : Prop :=
  ∃ d ds, g = '.' :: d :: ds ∧ isDigit19 d = true ∧
    ∀ c ∈ ds, isDigit09 c = true

/-- A list of characters matching `(\.[1-9]\d*)+`: a concatenation of
one or more groups. -/
def IsOidTail (t : List Char) : Prop :=
  ∃ gs : List (List Char), gs ≠ [] ∧ t = gs.flatten ∧ ∀ g ∈ gs, IsOidGroup g

/-- A list of characters matching the whole regex `[0-2](\.[1-9]\d*)+`. -/
def IsOidMatch (s : List Char) : Prop :=
  ∃ c t, s = c :: t ∧ isOidFirst c = true ∧ IsOidTail t

/-- Python `re.search` semantics for this regex: a match of the regex
starts at some position of the value. -/
def OidSearchProp (s : List Char) : Prop :=
  ∃ i m t, s.drop i = m ++ t ∧ IsOidMatch m

/-- Decision procedure for a match starting at the head of the list: a
shortest match is `[0-2]` `.` `[1-9]` (one group, no further digits),
and any match begins that way. -/
def oidStartB : List Char → Bool
  | c :: '.' :: d :: _ => isOidFirst c && isDigit19 d
  | _ => false

/-- Decision procedure for `re.search`: try every start position. -/
def oidSearchB : List Char → Bool
  | [] => false
  | c :: rest => oidStartB (c :: rest) || oidSearchB rest

/-- `RegexValidator.__call__` with `inverse_match=False`: raise
`ValidationError('Given string is no OID')` exactly when `re.search`
finds no match. -/
def oidValidate (value : List Char) : Except String Unit :=
  if oidSearchB value then Except.ok ()
  else Except.error "Given string is no OID"

/-- `OidField.__init__` (fields.py 139–144): overwrites
`kwargs["validators"]` with the single `RegexValidator`, then calls
`UriField.__init__`. -/
def OidField.init (kwargs : CharFieldKwargs) : CharFieldState :=
  UriField.init { kwargs with validators := [oidValidate] }

/-! ### `ReferenceField` (fields.py 51–95) -/

/-- The `on_delete` policies used in models.py. -/
inductive OnDelete where
  | CASCADE
  | PROTECT
  | SET_NULL
deriving DecidableEq

/-- The attribute record of a `ReferenceField`: the target the foreign
key is actually bound to (`kwargs["to"]`), the deletion policy, and the
`to` argument stored on the side as `self.referred_object`. -/
structure ReferenceFieldState where
  fk_to : String
  on_delete : OnDelete
  referred_object : String
deriving DecidableEq

/-- `ReferenceField.__init__(to, on_delete, ...)` (fields.py 80–92): no
matter what `to` names, `kwargs["to"]` is set to `"Reference"`, so the
foreign key is always bound to the `Reference` model; `to` is only
remembered as `self.referred_object`. -/
def ReferenceField.init (to_arg : String) (on_delete : OnDelete) :
    ReferenceFieldState :=
  { fk_to := "Reference", on_delete := on_delete, referred_object := to_arg }

/-! ### models.py -/

/-- The module-level choice tuple `PUBLICATION_STATUS`
(models.py 101–106). -/
def PUBLICATION_STATUS : List (String × String) :=
  [("draft", "Draft"), ("active", "Active"), ("retired", "Retired"),
   ("unknown", "Unknown")]

/-- `StructureDefinition.status = CodeField(choices=PUBLICATION_STATUS)`
(models.py 170): no positional `value_set`, the enumeration passed as
the `choices` keyword argument. -/
def StructureDefinition.status_field : CodeFieldState :=
  CodeField.init none { defaultKwargs with choices := some PUBLICATION_STATUS }

/-- `ValueSet.status = CodeField("PublicationStatus")` (models.py 255):
the string `"PublicationStatus"` is the first positional argument of
`CodeField.__init__`, which is `value_set` — not `choices`. -/
def ValueSet.status_field : CodeFieldState :=
  CodeField.init (some "PublicationStatus") defaultKwargs

/-- A stored `Reference` row (models.py 225–234): `references` is a
`CharField(max_length=255, blank=True)`, `identifier` a nullable
foreign key, `display` a `CharField(max_length=255, blank=True)`. -/
structure ReferenceRecord where
  references : String
  identifier : Option Nat
  display : String
deriving DecidableEq

/-- The field states of the two character columns of `Reference`. -/
def Reference.references_field : CharFieldState :=
  CharField.superInit
    { defaultKwargs with max_length := some 255, blank := true }

def Reference.display_field : CharFieldState :=
  CharField.superInit
    { defaultKwargs with max_length := some 255, blank := true }

/-- Field-level validation of a `Reference` row as the framework runs
it: each character column is validated, the nullable foreign key admits
`none`.  No inter-field constraint is declared (the at-least-one-of
requirement is only a TODO comment in the source). -/
def ReferenceRecord.full_clean (r : ReferenceRecord) : Bool :=
  Reference.references_field.validate r.references &&
  Reference.display_field.validate r.display

/-- `Reference.validate_unique` (models.py 233–234): the override body
is `pass` — no check, no exception, no mutation. -/
def Reference.validate_unique (r : ReferenceRecord)
    (exclude : Option (List String)) : Except String ReferenceRecord :=
  Except.ok r

/-- `Patient.generalPractitioner` (models.py 390–391): a
`ReferenceField` whose `to` argument is the disjunction string
`"Organization|Practitioner"` with `on_delete=SET_NULL`. -/
def Patient.generalPractitioner : ReferenceFieldState :=
  ReferenceField.init "Organization|Practitioner" OnDelete.SET_NULL

/-- `Identifier.assigner` (models.py 217): a `ReferenceField` to
`"Organisation"` with `on_delete=SET_NULL`. -/
def Identifier.assigner : ReferenceFieldState :=
  ReferenceField.init "Organisation" OnDelete.SET_NULL

/-! ### admin.py -/

/-- One `admin.site.register(Model)` call.  Registering without a
`ModelAdmin` subclass leaves every customisation unset. -/
structure AdminRegistration where
  model : String
  list_display : Option (List String)
  search_fields : Option (List String)
  list_filter : Option (List String)
deriving DecidableEq

/-- `admin.site.register(M)` with no options. -/
def defaultRegister (m : String) : AdminRegistration :=
  { model := m, list_display := none, search_fields := none,
    list_filter := none }

/-- The registration calls of admin.py (lines 23–32), in order. -/
def adminRegistrations : List AdminRegistration :=
  [defaultRegister "Resource", defaultRegister "DomainResource",
   defaultRegister "Coding", defaultRegister "Period",
   defaultRegister "StructureDefinition", defaultRegister "Identifier",
   defaultRegister "ValueSet", defaultRegister "ContactDetail",
   defaultRegister "ContactPoint", defaultRegister "Extension"]

/-! ### Correctness of the OID search decision procedure -/

theorem oidStartB_iff (cs : List Char) :
    oidStartB cs = true ↔ ∃ m t, cs = m ++ t ∧ IsOidMatch m := by
  constructor
  · intro h
    rw [oidStartB.eq_def] at h
    split at h
    case h_1 c d rest =>
      rw [Bool.and_eq_true] at h
      refine ⟨[c, '.', d], rest, by simp, c, ['.', d], rfl, h.1, ?_⟩
      refine ⟨[['.', d]], by simp, by simp, ?_⟩
      intro g hg
      simp at hg
      subst hg
      exact ⟨d, [], rfl, h.2, by simp⟩
    case h_2 => exact absurd h (by simp)
  · rintro ⟨m, t, heq, c, t2, hm, hc, gs, hgs, ht2, hgroups⟩
    obtain ⟨g1, gs2, rfl⟩ : ∃ g1 gs2, gs = g1 :: gs2 := by
      cases gs with
      | nil => exact absurd rfl hgs
      | cons a b => exact ⟨a, b, rfl⟩
    obtain ⟨d, ds, hg1, hd, -⟩ := hgroups g1 (by simp)
    subst hm hg1 ht2 heq
    simp only [List.flatten_cons, List.cons_append, List.append_assoc]
    simp [oidStartB, hc, hd]

theorem oidSearchB_iff (s : List Char) :
    oidSearchB s = true ↔ OidSearchProp s := by
  induction s with
  | nil =>
      simp only [oidSearchB, OidSearchProp]
      constructor
      · intro h
        exact absurd h (by simp)
      · rintro ⟨i, m, t, hdrop, c, t2, hm, -⟩
        rw [List.drop_nil] at hdrop
        subst hm
        exact absurd hdrop.symm (by simp)
  | cons c rest ih =>
      rw [oidSearchB, Bool.or_eq_true, oidStartB_iff, ih]
      constructor
      · rintro (⟨m, t, heq, hmatch⟩ | ⟨i, m, t, hdrop, hmatch⟩)
        · exact ⟨0, m, t, by simpa using heq, hmatch⟩
        · exact ⟨i + 1, m, t, by simpa using hdrop, hmatch⟩
      · rintro ⟨i, m, t, hdrop, hmatch⟩
        cases i with
        | zero => exact Or.inl ⟨m, t, by simpa using hdrop, hmatch⟩
        | succ j => exact Or.inr ⟨j, m, t, by simpa using hdrop, hmatch⟩

/-! ### The claims -/

/-- C1: a stored value that is the base64 encoding of the UTF-8
encoding of a text decodes back to exactly that text through
`Base64TextField.from_db_value`, and a null stored value (`None`) maps
to the absence value (`None`).  The field defines no encode path: only
`from_db_value` exists in the embedding, as in the source (the encode
direction is a TODO there). -/
theorem c1_base64_roundtrip_and_null :
    (∀ t : List Char,
      Base64TextField.from_db_value (some (b64encodeBytes (utf8Encode t))) =
        Except.ok (some t)) ∧
    Base64TextField.from_db_value none = Except.ok none := by
  constructor
  · intro t
    simp only [Base64TextField.from_db_value,
      b64decode_b64encodeBytes (utf8Encode t) (utf8Encode_lt t),
      utf8Decode_utf8Encode t]
  · rfl

/-- C10: `Base64TextField.from_db_value` is partial on malformed
non-null input: the stored value `"/w=="` is valid base64 but decodes
to the byte `0xFF`, which is not valid UTF-8, so the call raises
`UnicodeDecodeError`; the stored value `"A"` is not valid base64 and
raises `binascii.Error`. -/
theorem c10_from_db_value_error_on_invalid :
    Base64TextField.from_db_value (some ['/', 'w', '=', '=']) =
      Except.error DbDecodeError.unicodeDecodeError ∧
    Base64TextField.from_db_value (some ['A']) =
      Except.error DbDecodeError.binasciiError := by
  have hb : b64decode ['/', 'w', '=', '='] = some [255] := rfl
  have hu : utf8Decode [255] = none := by
    rw [utf8Decode]
    rfl
  constructor
  · simp only [Base64TextField.from_db_value, hb, hu]
  · rfl

/-- C2: an `IdField` keeps maximum length 64, but its default token is
produced by the call `uuid4()` evaluated once when the field is
constructed, so every object created without an explicit value receives
the one token drawn at field-definition time — here two consecutive
creations both receive `"uuid-0"`, not distinct fresh tokens. -/
theorem c2_idfield_default_drawn_once :
    ((IdField.init defaultKwargs ⟨0⟩).1.max_length = some 64) ∧
    ((IdField.init defaultKwargs ⟨0⟩).1.validate
        (String.mk (List.replicate 65 'a')) = false) ∧
    ((IdField.init defaultKwargs ⟨0⟩).1.validate
        (String.mk (List.replicate 64 'a')) = true) ∧
    (createObjectValue (IdField.init defaultKwargs ⟨0⟩).1 none
        (IdField.init defaultKwargs ⟨0⟩).2).1 = some "uuid-0" ∧
    (createObjectValue (IdField.init defaultKwargs ⟨0⟩).1 none
        (createObjectValue (IdField.init defaultKwargs ⟨0⟩).1 none
          (IdField.init defaultKwargs ⟨0⟩).2).2).1 = some "uuid-0" := by
  refine ⟨rfl, by decide, by decide, ?_, ?_⟩ <;> rfl

/-- C3 (amended): Django `RegexValidator` decides acceptance with
`re.search`, so `OidField` validation accepts exactly the values in
which a match of `[0-2](\.[1-9]\d*)+` starts at some position; every
value fully matching the regex is accepted, but full matching is not
necessary for acceptance. -/
theorem c3_oid_validation_search_semantics :
    ∀ s : List Char,
      (oidValidate s = Except.ok () ↔ OidSearchProp s) ∧
      (IsOidMatch s → oidValidate s = Except.ok ()) := by
  intro s
  have hsearch : oidValidate s = Except.ok () ↔ oidSearchB s = true := by
    unfold oidValidate
    split
    case isTrue h => simp [h]
    case isFalse h => simp [h]
  constructor
  · rw [hsearch, oidSearchB_iff]
  · intro hm
    rw [hsearch, oidSearchB_iff]
    exact ⟨0, s, [], by simp, hm⟩

/-- C3 (counterexample): the value `"x1.2"` does not match the OID
regex as a whole, yet validation accepts it, because `re.search` finds
the embedded match `"1.2"`; so validation does not reject every value
failing the pattern. -/
theorem c3_search_accepts_nonmatching :
    oidValidate ['x', '1', '.', '2'] = Except.ok () ∧
    ¬ IsOidMatch ['x', '1', '.', '2'] := by
  constructor
  · rfl
  · rintro ⟨c, t, heq, hc, -⟩
    cases heq
    exact absurd hc (by decide)

/-- C3 (witness): the fully matching value `"1.5"` is accepted. -/
theorem c3_oid_witness : oidValidate ['1', '.', '5'] = Except.ok () :=
  (c3_oid_validation_search_semantics ['1', '.', '5']).2
    ⟨'1', ['.', '5'], rfl, by decide,
     ⟨[['.', '5']], by simp, by simp, fun g hg => by
        simp at hg
        subst hg
        exact ⟨'5', [], rfl, by decide, by simp⟩⟩⟩

/-- C4 (amended): `StructureDefinition.status` validation accepts
exactly the members of the publication-status enumeration, but
`ValueSet.status` is not restricted to it: its `CodeField` receives
`"PublicationStatus"` as the positional `value_set` argument, not as
`choices`, so its validation accepts every non-empty value of at most
64 characters. -/
theorem c4_status_validation :
    ∀ s : String,
      (StructureDefinition.status_field.base.validate s = true ↔
        s ∈ ["draft", "active", "retired", "unknown"]) ∧
      (ValueSet.status_field.base.validate s = true ↔
        (s ≠ "" ∧ s.length ≤ 64)) := by
  intro s
  by_cases hs : s = ""
  · subst hs
    constructor
    · simp [CharFieldState.validate, StructureDefinition.status_field,
        CodeField.init, CharField.superInit, defaultKwargs]
    · simp [CharFieldState.validate, ValueSet.status_field,
        CodeField.init, CharField.superInit, defaultKwargs]
  · constructor
    · rw [CharFieldState.validate, if_neg hs]
      show (PUBLICATION_STATUS.any (fun p => p.1 == s) &&
        decide (s.length ≤ 64)) = true ↔ _
      rw [Bool.and_eq_true]
      simp only [PUBLICATION_STATUS, List.any_cons, List.any_nil,
        Bool.or_eq_true, beq_iff_eq, decide_eq_true_eq]
      constructor
      · rintro ⟨h, -⟩
        rcases h with h | h | h | h | h
        · rw [← h]
          decide
        · rw [← h]
          decide
        · rw [← h]
          decide
        · rw [← h]
          decide
        · simp at h
      · intro h
        simp at h
        rcases h with h | h | h | h <;> subst h <;> refine ⟨by simp, by decide⟩
    · rw [CharFieldState.validate, if_neg hs]
      show (true && decide (s.length ≤ 64)) = true ↔ _
      simp [hs]

/-- C4 (counterexample): the value `"bogus"` is outside the
enumeration, is rejected by `StructureDefinition.status` validation,
yet passes `ValueSet.status` validation. -/
theorem c4_valueset_status_accepts_any_code :
    ValueSet.status_field.base.validate "bogus" = true ∧
    "bogus" ∉ ["draft", "active", "retired", "unknown"] ∧
    StructureDefinition.status_field.base.validate "bogus" = false := by
  refine ⟨by decide, by decide, by decide⟩

/-- C5: whatever target name is passed to `ReferenceField` — including
the disjunction `"Organization|Practitioner"` used by
`Patient.generalPractitioner` — the constructed foreign key is bound to
the `Reference` model; the target name is only stored aside and takes
no part in the binding. -/
theorem c5_referencefield_static_binding :
    ∀ (to_arg : String) (od : OnDelete),
      (ReferenceField.init to_arg od).fk_to = "Reference" ∧
      (ReferenceField.init to_arg od).referred_object = to_arg ∧
      Patient.generalPractitioner.fk_to = "Reference" ∧
      Identifier.assigner.fk_to = "Reference" := by
  intro to_arg od
  exact ⟨rfl, rfl, rfl, rfl⟩

/-- C6 (amended): `Reference` validation checks only the length bounds
of the two character columns; the presence of the URI, identifier or
display plays no part, so the at-least-one-of constraint is not
enforced. -/
theorem c6_reference_validation_ignores_presence :
    ∀ r : ReferenceRecord,
      (r.full_clean = true ↔
        r.references.length ≤ 255 ∧ r.display.length ≤ 255) := by
  intro r
  rw [ReferenceRecord.full_clean, Bool.and_eq_true]
  have h1 : ∀ v : String,
      (CharField.superInit
        { defaultKwargs with max_length := some 255, blank := true }).validate v
        = true ↔ v.length ≤ 255 := by
    intro v
    by_cases hv : v = ""
    · subst hv
      simp [CharFieldState.validate, CharField.superInit, defaultKwargs]
    · rw [CharFieldState.validate, if_neg hv]
      show (true && decide (v.length ≤ 255)) = true ↔ _
      simp
  rw [show Reference.references_field = CharField.superInit
      { defaultKwargs with max_length := some 255, blank := true } from rfl,
    show Reference.display_field = CharField.superInit
      { defaultKwargs with max_length := some 255, blank := true } from rfl,
    h1, h1]

/-- C6 (counterexample): the `Reference` row with empty URI, null
identifier and empty display — all three components absent — passes
validation and can be stored. -/
theorem c6_empty_reference_passes_validation :
    ReferenceRecord.full_clean ⟨"", none, ""⟩ = true ∧
    (⟨"", none, ""⟩ : ReferenceRecord).references = "" ∧
    (⟨"", none, ""⟩ : ReferenceRecord).identifier = none ∧
    (⟨"", none, ""⟩ : ReferenceRecord).display = "" := by
  exact ⟨rfl, rfl, rfl, rfl⟩

/-- C7: `Reference.validate_unique` is a no-op for every record and
every `exclude` argument: it raises nothing and returns the record
unchanged, so uniqueness violations are never reported by this
override. -/
theorem c7_validate_unique_noop :
    ∀ (r : ReferenceRecord) (exclude : Option (List String)),
      Reference.validate_unique r exclude = Except.ok r := by
  intro r exclude
  rfl

/-- C8: exactly ten model types are registered into the admin site, in
this order, and none carries a list, search or filter customisation. -/
theorem c8_admin_registrations :
    adminRegistrations.map (fun e => e.model) =
      ["Resource", "DomainResource", "Coding", "Period",
       "StructureDefinition", "Identifier", "ValueSet", "ContactDetail",
       "ContactPoint", "Extension"] ∧
    adminRegistrations.length = 10 ∧
    ∀ e ∈ adminRegistrations,
      e.list_display = none ∧ e.search_fields = none ∧
      e.list_filter = none := by
  refine ⟨by decide, rfl, by decide⟩

/-- C9: the constructors of `UriField`, `CodeField` and `IdField`
overwrite any caller-supplied `max_length` unconditionally: whatever
keyword arguments are passed, the resulting field has maximum length
255, 64 and 64 respectively. -/
theorem c9_max_length_overwritten :
    ∀ kwargs : CharFieldKwargs,
      (UriField.init kwargs).max_length = some 255 ∧
      (∀ vs, (CodeField.init vs kwargs).base.max_length = some 64) ∧
      (∀ g, ((IdField.init kwargs g).1).max_length = some 64) := by
  intro kwargs
  exact ⟨rfl, fun vs => rfl, fun g => rfl⟩

end MedUX
